import Mathlib

/-!
# Verification of the photo editor's transform engine and style compositor

This development embeds the core numerical logic of the `photo_editor`
repository in Lean 4 and proves (or refutes) the specification's claims
about it.

The embedded code comes from:
* `hooks/useImageTransform` (the revision returning `setTransform` and
  `clampTransform`, i.e. the one consumed by `Editor.tsx`):
  `normalizeAngle`, `clampTransform`, `resetTransform`, `rotateBy`,
  `setRotation`, `flip`, `onWheel`.
* `components/Editor.tsx`: `getPointInImageSpace`, the CSS display
  transform (`imageStyle`), the canvas export transform (`handlePrint`),
  the sticker drag clamp (`handleMouseMove`), and `combinedFilterStyle`.

Numbers are modelled as real numbers (exact arithmetic); the angle
functions use `Real.cos` / `Real.sin` of the radian value exactly as the
source computes it, and the JavaScript remainder operator `%` is modelled
by truncated division.  A separate small model of IEEE-754 special values
(`JSNum`) is used where a claim is about division by zero producing
Infinity/NaN.
-/

/-- Image or frame dimensions (the source's `Bounds` interface). -/
structure Bounds where
  width : ℝ
  height : ℝ

/-- A 2-D point (pivot, pointer position, image-space point, ...). -/
@[ext]
structure Point where
  x : ℝ
  y : ℝ

/-- The source's `Transform` interface (`types.ts`). -/
@[ext]
structure Transform where
  x : ℝ
  y : ℝ
  scale : ℝ
  rotation : ℝ
  flipX : Bool
  flipY : Bool

/-- JavaScript truncated division: `Math.trunc (a / b)`, the quotient used by
the `%` operator (rounds toward zero). -/
noncomputable def jsTrunc (q : ℝ) : ℤ :=
  if 0 ≤ q then ⌊q⌋ else ⌈q⌉

/-- The JavaScript remainder `a % b` for finite `a` and positive finite `b`:
`a - b * Math.trunc (a / b)` (the result has the sign of `a`). -/
noncomputable def jsMod (a b : ℝ) : ℝ :=
  a - b * (jsTrunc (a / b) : ℝ)

/-- `normalizeAngle` from `useImageTransform`:
```
let newAngle = angle % 360;
if (newAngle > 180) newAngle -= 360;
else if (newAngle <= -180) newAngle += 360;
return newAngle;
``` -/
noncomputable def normalizeAngle (angle : ℝ) : ℝ :=
  let newAngle := jsMod angle 360
  if newAngle > 180 then newAngle - 360
  else if newAngle ≤ -180 then newAngle + 360
  else newAngle

/-- `MAX_ZOOM` from `useImageTransform`. -/
def MAX_ZOOM : ℝ := 5

/-- `Math.cos(t.rotation * (Math.PI / 180))` as the source computes it. -/
noncomputable def cosOf (rotationDeg : ℝ) : ℝ :=
  Real.cos (rotationDeg * (Real.pi / 180))

/-- `Math.sin(t.rotation * (Math.PI / 180))` as the source computes it. -/
noncomputable def sinOf (rotationDeg : ℝ) : ℝ :=
  Real.sin (rotationDeg * (Real.pi / 180))

/-- Lines 44–49 of `useImageTransform.clampTransform`: the minimum scale at
which the rotated image bounding box covers the frame,
`max(frameW / rotatedImgWidth, frameH / rotatedImgHeight)` with
`rotatedImgWidth = |imgW·cos| + |imgH·sin|` and
`rotatedImgHeight = |imgW·sin| + |imgH·cos|`. -/
noncomputable def minScaleToCover (ib fb : Bounds) (rotationDeg : ℝ) : ℝ :=
  max (fb.width / (|ib.width * cosOf rotationDeg| + |ib.height * sinOf rotationDeg|))
      (fb.height / (|ib.width * sinOf rotationDeg| + |ib.height * cosOf rotationDeg|))

/-- Lines 51–52: `clampedScale = Math.max(minScale, Math.min(t.scale, MAX_ZOOM))`. -/
noncomputable def clampedScaleOf (ib fb : Bounds) (rotationDeg scale : ℝ) : ℝ :=
  max (minScaleToCover ib fb rotationDeg) (min scale MAX_ZOOM)

/-- Lines 63–69: the maximum horizontal pan magnitude,
`max(0, (|imgW·cs·cos| + |imgH·cs·sin| - frameW) / 2)` at the clamped scale `cs`. -/
noncomputable def panRangeX (ib fb : Bounds) (rotationDeg cs : ℝ) : ℝ :=
  max 0 ((|ib.width * cs * cosOf rotationDeg| + |ib.height * cs * sinOf rotationDeg|
      - fb.width) / 2)

/-- Lines 63–70: the maximum vertical pan magnitude. -/
noncomputable def panRangeY (ib fb : Bounds) (rotationDeg cs : ℝ) : ℝ :=
  max 0 ((|ib.width * cs * sinOf rotationDeg| + |ib.height * cs * cosOf rotationDeg|
      - fb.height) / 2)

/-- `clampTransform` from `useImageTransform` (lines 37–76), for the case
where both bounds are known.  `pivot` is `interactionState.current.pivot`.

```
const uncappedScale = t.scale;
let clampedScale = Math.max(minScale, Math.min(uncappedScale, MAX_ZOOM));
let { x, y } = t;
if (clampedScale !== uncappedScale) {
    const scaleRatio = clampedScale / uncappedScale;
    x = pivot.x + (t.x - pivot.x) * scaleRatio;
    y = pivot.y + (t.y - pivot.y) * scaleRatio;
}
...
x = Math.max(-panRangeX, Math.min(x, panRangeX));
y = Math.max(-panRangeY, Math.min(y, panRangeY));
return { ...t, x, y, scale: clampedScale, rotation: normalizeAngle(t.rotation) };
``` -/
noncomputable def clampTransform (ib fb : Bounds) (pivot : Point) (t : Transform) :
    Transform :=
  let clampedScale := clampedScaleOf ib fb t.rotation t.scale
  let x0 : ℝ :=
    if clampedScale ≠ t.scale then pivot.x + (t.x - pivot.x) * (clampedScale / t.scale)
    else t.x
  let y0 : ℝ :=
    if clampedScale ≠ t.scale then pivot.y + (t.y - pivot.y) * (clampedScale / t.scale)
    else t.y
  let prX := panRangeX ib fb t.rotation clampedScale
  let prY := panRangeY ib fb t.rotation clampedScale
  { t with
    x := max (-prX) (min x0 prX)
    y := max (-prY) (min y0 prY)
    scale := clampedScale
    rotation := normalizeAngle t.rotation }

/-- The axis argument of `flip('x' | 'y')`. -/
inductive Axis where
  | x
  | y
deriving DecidableEq

/-- `clampTransform` including its first line
`if (!imageBounds || !frameBounds) return t;` — bounds may be unknown. -/
noncomputable def clampTransformOpt (ib fb : Option Bounds) (pivot : Point)
    (t : Transform) : Transform :=
  match ib, fb with
  | some ibb, some fbb => clampTransform ibb fbb pivot t
  | _, _ => t

/-- `resetTransform` (lines 79–87) acting on the stored transform state:
`if (!imageBounds || !frameBounds) return;` leaves the state untouched,
otherwise the state becomes the clamp of the initial cover-fit transform. -/
noncomputable def resetTransformOpt (ib fb : Option Bounds) (pivot : Point)
    (state : Transform) : Transform :=
  match ib, fb with
  | some ibb, some fbb =>
      clampTransform ibb fbb pivot
        { x := 0, y := 0,
          scale := max (fbb.width / ibb.width) (fbb.height / ibb.height),
          rotation := 0, flipX := false, flipY := false }
  | _, _ => state

/-- `rotateBy` (lines 89–92): pivot is reset to the frame center and the
incremented rotation is passed through `clampTransformOpt`. -/
noncomputable def rotateByOpt (ib fb : Option Bounds) (degrees : ℝ)
    (prev : Transform) : Transform :=
  clampTransformOpt ib fb ⟨0, 0⟩ { prev with rotation := prev.rotation + degrees }

/-- `setRotation` (lines 94–97). -/
noncomputable def setRotationOpt (ib fb : Option Bounds) (degrees : ℝ)
    (prev : Transform) : Transform :=
  clampTransformOpt ib fb ⟨0, 0⟩ { prev with rotation := degrees }

/-- `flip` (lines 99–101): toggles the requested flip flag and passes the
result through `clampTransformOpt` (the pivot ref is left as is). -/
noncomputable def flipOpt (ib fb : Option Bounds) (pivot : Point) (axis : Axis)
    (prev : Transform) : Transform :=
  clampTransformOpt ib fb pivot
    { prev with
      flipX := if axis = Axis.x then !prev.flipX else prev.flipX
      flipY := if axis = Axis.y then !prev.flipY else prev.flipY }

/-- `onPan` (lines 108–119): adds the pointer delta to the pan and passes the
result through `clampTransformOpt`. -/
noncomputable def onPanOpt (ib fb : Option Bounds) (pivot : Point) (dx dy : ℝ)
    (prev : Transform) : Transform :=
  clampTransformOpt ib fb pivot { prev with x := prev.x + dx, y := prev.y + dy }

/-- The CSS preview transform of `imageStyle` (useImageTransform lines 224–228):
`translate(x, y) rotate(r) scale(s) scaleX(fx) scaleY(fy)` with
`transformOrigin: center` — flip is applied first (innermost), then uniform
scale, then rotation, then translation.  Maps an image-space point `p`
(top-left origin) to view coordinates relative to the container center. -/
noncomputable def forwardCss (ib : Bounds) (t : Transform) (p : Point) : Point :=
  let cx := p.x - ib.width / 2
  let cy := p.y - ib.height / 2
  let fx : ℝ := if t.flipX then -1 else 1
  let fy : ℝ := if t.flipY then -1 else 1
  let sx := t.scale * (fx * cx)
  let sy := t.scale * (fy * cy)
  ⟨t.x + (cosOf t.rotation * sx - sinOf t.rotation * sy),
    t.y + (sinOf t.rotation * sx + cosOf t.rotation * sy)⟩

/-- The canvas export transform of `handlePrint` (Editor.tsx lines 565–577, at
output multiplier 1): `translate(x, y); scale(fx, fy); rotate(r); scale(s)` —
scale first, then rotation, then flip, then translation ("Apply flip before
rotation for intuitive behavior"). -/
noncomputable def forwardCanvas (ib : Bounds) (t : Transform) (p : Point) : Point :=
  let cx := p.x - ib.width / 2
  let cy := p.y - ib.height / 2
  let sx := t.scale * cx
  let sy := t.scale * cy
  let rx := cosOf t.rotation * sx - sinOf t.rotation * sy
  let ry := sinOf t.rotation * sx + cosOf t.rotation * sy
  let fx : ℝ := if t.flipX then -1 else 1
  let fy : ℝ := if t.flipY then -1 else 1
  ⟨t.x + fx * rx, t.y + fy * ry⟩

/-- `getPointInImageSpace` from Editor.tsx (lines 260–299), with the view
point already expressed relative to the container center (steps after the
`getBoundingClientRect` bookkeeping):

```
let pX = viewX - x;  let pY = viewY - y;
pX /= (flipX ? -1 : 1);  pY /= (flipY ? -1 : 1);
const angleRad = -rotation * (Math.PI / 180);
const cos = Math.cos(angleRad); const sin = Math.sin(angleRad);
let rotatedX = pX * cos - pY * sin;  let rotatedY = pX * sin + pY * cos;
pX = rotatedX / scale;  pY = rotatedY / scale;
return { x: pX + imageBounds.width / 2, y: pY + imageBounds.height / 2 };
``` -/
noncomputable def getPointInImageSpace (ib : Bounds) (t : Transform)
    (view : Point) : Point :=
  let pX := view.x - t.x
  let pY := view.y - t.y
  let pX2 := pX / (if t.flipX then (-1 : ℝ) else 1)
  let pY2 := pY / (if t.flipY then (-1 : ℝ) else 1)
  let angleRad := -t.rotation * (Real.pi / 180)
  let c := Real.cos angleRad
  let s := Real.sin angleRad
  let rotatedX := pX2 * c - pY2 * s
  let rotatedY := pX2 * s + pY2 * c
  ⟨rotatedX / t.scale + ib.width / 2, rotatedY / t.scale + ib.height / 2⟩

/-- The transform proposed by `onWheel` (lines 126–146) before clamping:
`zoomFactor = 1 - deltaY * 0.001`, `newScale = scale * zoomFactor`,
`newX = mouseX + (x - mouseX) * zoomFactor` (and likewise for y), where
`(mouseX, mouseY)` is the pointer position relative to the container center;
the code also records `(mouseX, mouseY)` as the clamp pivot. -/
noncomputable def onWheelProposed (deltaY mouseX mouseY : ℝ)
    (prev : Transform) : Transform :=
  let zoomFactor := 1 - deltaY * (1 / 1000)
  { prev with
    scale := prev.scale * zoomFactor
    x := mouseX + (prev.x - mouseX) * zoomFactor
    y := mouseY + (prev.y - mouseY) * zoomFactor }


/-! ### Sticker drag (Editor.tsx `handleMouseMove`, lines 371–393)

The sticker geometry involves no trigonometry, so it is embedded over the
rationals and is fully computable. -/

/-- Frame dimensions for the sticker clamp (rational, computable). -/
structure BoundsQ where
  width : ℚ
  height : ℚ
deriving DecidableEq

/-- The source's `Sticker` record (the fields the drag clamp reads). -/
structure Sticker where
  x : ℚ
  y : ℚ
  width : ℚ
  height : ℚ
  rotation : ℚ
  scale : ℚ
deriving DecidableEq

/-- The drag clamp of `handleMouseMove`:

```
const newPos = { x: draggingSticker.startX + dx, y: draggingSticker.startY + dy };
const stickerHalfW = s.width * s.scale / 2;
const stickerHalfH = s.height * s.scale / 2;
const frameHalfW = frameBounds.width / 2;
const frameHalfH = frameBounds.height / 2;
newPos.x = Math.max(-frameHalfW + stickerHalfW, Math.min(newPos.x, frameHalfW - stickerHalfW));
newPos.y = Math.max(-frameHalfH + stickerHalfH, Math.min(newPos.y, frameHalfH - stickerHalfH));
```

Returns the clamped `(x, y)`. -/
def dragSticker (fb : BoundsQ) (s : Sticker) (startX startY dx dy : ℚ) : ℚ × ℚ :=
  let newPosX := startX + dx
  let newPosY := startY + dy
  let stickerHalfW := s.width * s.scale / 2
  let stickerHalfH := s.height * s.scale / 2
  let frameHalfW := fb.width / 2
  let frameHalfH := fb.height / 2
  (max (-frameHalfW + stickerHalfW) (min newPosX (frameHalfW - stickerHalfW)),
   max (-frameHalfH + stickerHalfH) (min newPosY (frameHalfH - stickerHalfH)))

/-! ### A small model of IEEE-754 special values

JavaScript numbers are IEEE-754 doubles: division by zero produces
±Infinity, `0 * Infinity` and `Infinity - Infinity` produce NaN, and
`Math.max`/`Math.min` propagate NaN.  Claim C7 is about exactly these
behaviours, which the real-number model cannot express, so the scale/pan
core of `clampTransform` is re-embedded over this type (finite values are
exact rationals; signed zero is not modelled, which is irrelevant here). -/
inductive JSNum where
  | nan
  | posInf
  | negInf
  | num (q : ℚ)
deriving DecidableEq

namespace JSNum

def isNan : JSNum → Bool
  | nan => true
  | _ => false

def add : JSNum → JSNum → JSNum
  | nan, _ => nan
  | _, nan => nan
  | posInf, negInf => nan
  | negInf, posInf => nan
  | posInf, _ => posInf
  | _, posInf => posInf
  | negInf, _ => negInf
  | _, negInf => negInf
  | num a, num b => num (a + b)

def neg : JSNum → JSNum
  | nan => nan
  | posInf => negInf
  | negInf => posInf
  | num a => num (-a)

def sub (a b : JSNum) : JSNum := a.add b.neg

def mul : JSNum → JSNum → JSNum
  | nan, _ => nan
  | _, nan => nan
  | posInf, posInf => posInf
  | posInf, negInf => negInf
  | negInf, posInf => negInf
  | negInf, negInf => posInf
  | posInf, num b => if 0 < b then posInf else if b < 0 then negInf else nan
  | num a, posInf => if 0 < a then posInf else if a < 0 then negInf else nan
  | negInf, num b => if 0 < b then negInf else if b < 0 then posInf else nan
  | num a, negInf => if 0 < a then negInf else if a < 0 then posInf else nan
  | num a, num b => num (a * b)

def div : JSNum → JSNum → JSNum
  | nan, _ => nan
  | _, nan => nan
  | posInf, posInf => nan
  | posInf, negInf => nan
  | negInf, posInf => nan
  | negInf, negInf => nan
  | posInf, num b => if b < 0 then negInf else posInf
  | negInf, num b => if b < 0 then posInf else negInf
  | num _, posInf => num 0
  | num _, negInf => num 0
  | num a, num b =>
      if b = 0 then (if 0 < a then posInf else if a < 0 then negInf else nan)
      else num (a / b)

/-- `Math.abs`. -/
def abs : JSNum → JSNum
  | nan => nan
  | posInf => posInf
  | negInf => posInf
  | num a => num |a|

/-- `Math.max` (NaN-propagating). -/
def max : JSNum → JSNum → JSNum
  | nan, _ => nan
  | _, nan => nan
  | posInf, _ => posInf
  | _, posInf => posInf
  | negInf, b => b
  | a, negInf => a
  | num a, num b => num (Max.max a b)

/-- `Math.min` (NaN-propagating). -/
def min : JSNum → JSNum → JSNum
  | nan, _ => nan
  | _, nan => nan
  | negInf, _ => negInf
  | _, negInf => negInf
  | posInf, b => b
  | a, posInf => a
  | num a, num b => num (Min.min a b)

/-- JavaScript strict inequality `a !== b` on numbers: true when either side
is NaN, otherwise value inequality. -/
def strictNeq (a b : JSNum) : Bool :=
  a.isNan || b.isNan || decide (a ≠ b)

end JSNum

/-- The numeric core of `clampTransform` (lines 44–73) over the IEEE
special-value model: the rotated-bounding-box minimum-scale computation, the
scale clamp, the pivot correction and the pan clamp.  `cos`/`sin` are the
values `Math.cos(angleRad)` / `Math.sin(angleRad)` (at rotation 0 they are
exactly 1 and 0).  Returns `(x, y, clampedScale)`. -/
def clampXYScaleJS (ibw ibh fbw fbh cos sin pivotX pivotY tx ty tscale : JSNum) :
    JSNum × JSNum × JSNum :=
  let rotatedImgWidth := ((ibw.mul cos).abs).add ((ibh.mul sin).abs)
  let rotatedImgHeight := ((ibw.mul sin).abs).add ((ibh.mul cos).abs)
  let minScaleToCoverX := fbw.div rotatedImgWidth
  let minScaleToCoverY := fbh.div rotatedImgHeight
  let minScale := JSNum.max minScaleToCoverX minScaleToCoverY
  let clampedScale := JSNum.max minScale (JSNum.min tscale (JSNum.num 5))
  let x0 := if JSNum.strictNeq clampedScale tscale then
      pivotX.add ((tx.sub pivotX).mul (clampedScale.div tscale))
    else tx
  let y0 := if JSNum.strictNeq clampedScale tscale then
      pivotY.add ((ty.sub pivotY).mul (clampedScale.div tscale))
    else ty
  let imgDisplayWidth := ibw.mul clampedScale
  let imgDisplayHeight := ibh.mul clampedScale
  let rotatedWidth := ((imgDisplayWidth.mul cos).abs).add ((imgDisplayHeight.mul sin).abs)
  let rotatedHeight := ((imgDisplayWidth.mul sin).abs).add ((imgDisplayHeight.mul cos).abs)
  let panRangeX := JSNum.max (JSNum.num 0) ((rotatedWidth.sub fbw).div (JSNum.num 2))
  let panRangeY := JSNum.max (JSNum.num 0) ((rotatedHeight.sub fbh).div (JSNum.num 2))
  (JSNum.max panRangeX.neg (JSNum.min x0 panRangeX),
   JSNum.max panRangeY.neg (JSNum.min y0 panRangeY),
   clampedScale)

/-! ### The style compositor (`combinedFilterStyle`, Editor.tsx lines 96–146)

The preset style string is broken into individual filter functions by the
global regex `(\w+)\(([^)]+)\)`, each hit is re-parsed with `(\w+)\((.+)\)`
and `parseFloat`, finetune-name hits with numeric values are merged into the
slider values, and everything else is pushed through to `otherFilters`.
The string scanning below reproduces those regexes: a match needs a maximal
nonempty word-character run immediately followed by `(`, a nonempty
`)`-free body and a closing `)`; on failure the scan advances one character,
on success it resumes after the match, exactly like a global `RegExp`.  The
greedy `(.+)` of the inner regex takes everything up to the last `)`.
`parseFloat` is modelled for the decimal literals the presets use (optional
sign, digits, optional fraction; trailing garbage such as `deg` ignored;
exponent notation is not used by any preset). -/

/-- `\w` = `[A-Za-z0-9_]`. -/
def isWordChar (c : Char) : Bool := c.isAlphanum || c = '_'

/-- Global scan of `(\w+)\(([^)]+)\)`, returning the full-match strings. -/
def scanFiltersAux : Nat → List Char → List String
  | 0, _ => []
  | _ + 1, [] => []
  | fuel + 1, c :: rest =>
    if isWordChar c then
      let run := List.takeWhile isWordChar (c :: rest)
      match List.drop run.length (c :: rest) with
      | '(' :: rest2 =>
        let body := List.takeWhile (fun ch => ch ≠ ')') rest2
        if body.isEmpty then scanFiltersAux fuel rest
        else
          match List.drop body.length rest2 with
          | ')' :: rest3 => String.mk (run ++ '(' :: (body ++ [')'])) :: scanFiltersAux fuel rest3
          | _ => scanFiltersAux fuel rest
      | _ => scanFiltersAux fuel rest
    else scanFiltersAux fuel rest

/-- `presetStyle.match(filterRegex) || []` of the source. -/
def extractFilters (s : String) : List String :=
  scanFiltersAux s.toList.length s.toList

/-- First match of the non-global `(\w+)\((.+)\)`, returning
(name, value string); the greedy `(.+)` extends to the last `)`. -/
def parseFilterPartsAux : Nat → List Char → Option (String × String)
  | 0, _ => none
  | _ + 1, [] => none
  | fuel + 1, c :: rest =>
    if isWordChar c then
      let run := List.takeWhile isWordChar (c :: rest)
      match List.drop run.length (c :: rest) with
      | '(' :: rest2 =>
        match rest2.reverse.dropWhile (fun ch => ch ≠ ')') with
        | ')' :: revVal =>
          if revVal.isEmpty then parseFilterPartsAux fuel rest
          else some (String.mk run, String.mk revVal.reverse)
        | _ => parseFilterPartsAux fuel rest
      | _ => parseFilterPartsAux fuel rest
    else parseFilterPartsAux fuel rest

/-- `filter.match(/(\w+)\((.+)\)/)` of the source. -/
def parseFilterParts (f : String) : Option (String × String) :=
  parseFilterPartsAux f.toList.length f.toList

/-- Numeric value of a digit run. -/
def digitsVal (cs : List Char) : ℚ :=
  cs.foldl (fun acc c => acc * 10 + ((c.toNat - '0'.toNat : Nat) : ℚ)) 0

/-- `parseFloat(valueString)`: `none` models NaN. -/
def parseFloatQ (s : String) : Option ℚ :=
  let cs := s.toList.dropWhile (fun c => c = ' ' || c = '\t' || c = '\n' || c = '\r')
  let signAndRest : ℚ × List Char :=
    match cs with
    | '-' :: r => (-1, r)
    | '+' :: r => (1, r)
    | r => (1, r)
  let intDigits := signAndRest.2.takeWhile Char.isDigit
  let afterInt := signAndRest.2.drop intDigits.length
  let fracDigits :=
    match afterInt with
    | '.' :: r => r.takeWhile Char.isDigit
    | _ => []
  if intDigits.isEmpty ∧ fracDigits.isEmpty then none
  else some (signAndRest.1 * (digitsVal intDigits + digitsVal fracDigits / 10 ^ fracDigits.length))

/-- The source's `FinetuneSettings` (types.ts); slider units are percent. -/
structure FinetuneSettings where
  brightness : ℚ
  contrast : ℚ
  saturation : ℚ
  sepia : ℚ
  vignette : ℚ
deriving DecidableEq

/-- The mutable `baseSettings` object of `combinedFilterStyle` (its four keys
`brightness`, `contrast`, `saturate`, `sepia`). -/
structure MergedSettings where
  brightness : ℚ
  contrast : ℚ
  saturate : ℚ
  sepia : ℚ
deriving DecidableEq

/-- Lines 98–103: the slider values scaled from percent. -/
def baseSettings (fs : FinetuneSettings) : MergedSettings :=
  ⟨fs.brightness / 100, fs.contrast / 100, fs.saturation / 100, fs.sepia / 100⟩

/-- `finetuneFilterNames = new Set(Object.keys(baseSettings))`. -/
def finetuneFilterNames : List String := ["brightness", "contrast", "saturate", "sepia"]

/-- One iteration of the `for (const filter of presetFilters)` loop
(lines 113–136): parse, merge numeric finetune-name hits (multiplicative for
brightness/contrast/saturate, additive with ceiling 1 for sepia), push
everything else to `otherFilters`. -/
def applyPresetFilter (acc : MergedSettings × List String) (filter : String) :
    MergedSettings × List String :=
  match parseFilterParts filter with
  | none => acc
  | some (name, valueString) =>
    match parseFloatQ valueString with
    | some value =>
      if name ∈ finetuneFilterNames then
        if name = "brightness" then ({ acc.1 with brightness := acc.1.brightness * value }, acc.2)
        else if name = "contrast" then ({ acc.1 with contrast := acc.1.contrast * value }, acc.2)
        else if name = "saturate" then ({ acc.1 with saturate := acc.1.saturate * value }, acc.2)
        else if name = "sepia" then
          let merged := acc.1.sepia + value
          ({ acc.1 with sepia := if merged > 1 then 1 else merged }, acc.2)
        else acc
      else (acc.1, acc.2 ++ [filter])
    | none => (acc.1, acc.2 ++ [filter])

/-- `combinedFilterStyle` up to the final string formatting: the merged
finetune values and the pass-through `otherFilters` list (lines 96–137; the
remaining lines 139–145 only pretty-print these into one CSS string). -/
def combinedFilterParts (presetStyle : String) (fs : FinetuneSettings) :
    MergedSettings × List String :=
  (extractFilters presetStyle).foldl applyPresetFilter (baseSettings fs, [])

/-- The numeric value a filter entry contributes to dimension `name`
(none when the entry has a different name or a NaN value). -/
def parsedNumericValue (name : String) (filter : String) : Option ℚ :=
  match parseFilterParts filter with
  | some (n, vs) => if n = name then parseFloatQ vs else none
  | none => none

/-- All numeric contributions of the preset string to dimension `name`. -/
def namedValues (presetStyle : String) (name : String) : List ℚ :=
  (extractFilters presetStyle).filterMap (parsedNumericValue name)

/-- Whether the loop pushes this entry to `otherFilters` (parse failures are
skipped by `continue`; numeric finetune-name entries are merged instead). -/
def isPushed (filter : String) : Bool :=
  match parseFilterParts filter with
  | some (n, vs) => !(decide (n ∈ finetuneFilterNames) && (parseFloatQ vs).isSome)
  | none => false

section Projections

variable (ib fb : Bounds) (pivot : Point) (t : Transform)

theorem clampTransform_scale :
    (clampTransform ib fb pivot t).scale = clampedScaleOf ib fb t.rotation t.scale := rfl

theorem clampTransform_rotation :
    (clampTransform ib fb pivot t).rotation = normalizeAngle t.rotation := rfl

theorem clampTransform_flipX :
    (clampTransform ib fb pivot t).flipX = t.flipX := rfl

theorem clampTransform_flipY :
    (clampTransform ib fb pivot t).flipY = t.flipY := rfl

theorem clampTransform_x :
    (clampTransform ib fb pivot t).x =
      max (-(panRangeX ib fb t.rotation (clampedScaleOf ib fb t.rotation t.scale)))
        (min (if clampedScaleOf ib fb t.rotation t.scale ≠ t.scale then
                pivot.x + (t.x - pivot.x) * (clampedScaleOf ib fb t.rotation t.scale / t.scale)
              else t.x)
          (panRangeX ib fb t.rotation (clampedScaleOf ib fb t.rotation t.scale))) := rfl

theorem clampTransform_y :
    (clampTransform ib fb pivot t).y =
      max (-(panRangeY ib fb t.rotation (clampedScaleOf ib fb t.rotation t.scale)))
        (min (if clampedScaleOf ib fb t.rotation t.scale ≠ t.scale then
                pivot.y + (t.y - pivot.y) * (clampedScaleOf ib fb t.rotation t.scale / t.scale)
              else t.y)
          (panRangeY ib fb t.rotation (clampedScaleOf ib fb t.rotation t.scale))) := rfl

end Projections

/-! ### Properties of angle normalization -/

theorem jsMod_360_nonneg_lt {a : ℝ} (ha : 0 ≤ a) : 0 ≤ jsMod a 360 ∧ jsMod a 360 < 360 := by
  have h360 : (0:ℝ) < 360 := by norm_num
  have hq : 0 ≤ a / 360 := by positivity
  have htr : jsTrunc (a / 360) = ⌊a / 360⌋ := by
    simp [jsTrunc, hq]
  have hf0 : 0 ≤ Int.fract (a / 360) := Int.fract_nonneg _
  have hf1 : Int.fract (a / 360) < 1 := Int.fract_lt_one _
  have hmod : jsMod a 360 = 360 * Int.fract (a / 360) := by
    rw [jsMod, htr, Int.fract]
    field_simp
  constructor
  · rw [hmod]; positivity
  · rw [hmod]; nlinarith

theorem jsMod_360_neg_bounds {a : ℝ} (ha : a < 0) : -360 < jsMod a 360 ∧ jsMod a 360 ≤ 0 := by
  have hq : a / 360 < 0 := by
    apply div_neg_of_neg_of_pos ha; norm_num
  have htr : jsTrunc (a / 360) = ⌈a / 360⌉ := by
    simp [jsTrunc, not_le.mpr hq]
  have hceil : (⌈a / 360⌉ : ℝ) = -(⌊-(a / 360)⌋ : ℝ) := by
    rw [Int.floor_neg]; push_cast; ring
  have hf0 : 0 ≤ Int.fract (-(a / 360)) := Int.fract_nonneg _
  have hf1 : Int.fract (-(a / 360)) < 1 := Int.fract_lt_one _
  have hmod : jsMod a 360 = -(360 * Int.fract (-(a / 360))) := by
    rw [jsMod, htr, hceil, Int.fract]
    field_simp
    ring
  constructor
  · rw [hmod]; nlinarith
  · rw [hmod]; nlinarith

theorem jsMod_360_bounds (a : ℝ) : -360 < jsMod a 360 ∧ jsMod a 360 < 360 := by
  rcases le_or_lt 0 a with h | h
  · obtain ⟨h1, h2⟩ := jsMod_360_nonneg_lt h
    exact ⟨by linarith, h2⟩
  · obtain ⟨h1, h2⟩ := jsMod_360_neg_bounds h
    exact ⟨h1, by linarith⟩

/-- `normalizeAngle` maps every finite angle into the half-open interval
`(-180, 180]`. -/
theorem normalizeAngle_mem (a : ℝ) :
    -180 < normalizeAngle a ∧ normalizeAngle a ≤ 180 := by
  obtain ⟨hlo, hhi⟩ := jsMod_360_bounds a
  unfold normalizeAngle
  set m := jsMod a 360 with hm
  by_cases h1 : m > 180
  · simp only [h1, if_true]
    constructor <;> linarith
  · simp only [h1, if_false]
    by_cases h2 : m ≤ -180
    · simp only [h2, if_true]
      constructor <;> linarith
    · simp only [h2, if_false]
      push_neg at h1 h2
      exact ⟨h2, h1⟩

/-- `normalizeAngle` shifts its argument by an integer multiple of 360. -/
theorem normalizeAngle_sub_int (a : ℝ) : ∃ k : ℤ, normalizeAngle a = a - 360 * k := by
  unfold normalizeAngle jsMod
  by_cases h1 : a - 360 * (jsTrunc (a / 360) : ℝ) > 180
  · exact ⟨jsTrunc (a / 360) + 1, by simp only [h1, if_true]; push_cast; ring⟩
  · simp only [h1, if_false]
    by_cases h2 : a - 360 * (jsTrunc (a / 360) : ℝ) ≤ -180
    · exact ⟨jsTrunc (a / 360) - 1, by simp only [h2, if_true]; push_cast; ring⟩
    · exact ⟨jsTrunc (a / 360), by simp only [h2, if_false]⟩

/-- On `(-180, 180]`, `normalizeAngle` is the identity. -/
theorem normalizeAngle_eq_self {a : ℝ} (hlo : -180 < a) (hhi : a ≤ 180) :
    normalizeAngle a = a := by
  have hmod : jsMod a 360 = a := by
    have htr : jsTrunc (a / 360) = 0 := by
      unfold jsTrunc
      rcases le_or_lt 0 a with h | h
      · have h0 : 0 ≤ a / 360 := by positivity
        rw [if_pos h0, Int.floor_eq_zero_iff]
        constructor
        · exact h0
        · rw [div_lt_one (by norm_num : (0:ℝ) < 360)]; linarith
      · have h0 : ¬ (0 ≤ a / 360) := by
          push_neg
          apply div_neg_of_neg_of_pos h; norm_num
        rw [if_neg h0, Int.ceil_eq_zero_iff]
        constructor
        · rw [lt_div_iff₀ (by norm_num : (0:ℝ) < 360)]
          linarith
        · exact le_of_lt (by apply div_neg_of_neg_of_pos h; norm_num)
    rw [jsMod, htr]
    push_cast
    ring
  unfold normalizeAngle
  rw [hmod, if_neg (by linarith), if_neg (by linarith)]

/-- `normalizeAngle` is idempotent. -/
theorem normalizeAngle_idem (a : ℝ) : normalizeAngle (normalizeAngle a) = normalizeAngle a := by
  obtain ⟨h1, h2⟩ := normalizeAngle_mem a
  exact normalizeAngle_eq_self h1 h2

/-- The cosine the code computes is unchanged by rotation normalization. -/
theorem cosOf_normalizeAngle (r : ℝ) : cosOf (normalizeAngle r) = cosOf r := by
  obtain ⟨k, hk⟩ := normalizeAngle_sub_int r
  unfold cosOf
  rw [hk]
  have harg : (r - 360 * (k : ℝ)) * (Real.pi / 180)
      = r * (Real.pi / 180) - (k : ℝ) * (2 * Real.pi) := by ring
  rw [harg, Real.cos_sub_int_mul_two_pi]

/-- The sine the code computes is unchanged by rotation normalization. -/
theorem sinOf_normalizeAngle (r : ℝ) : sinOf (normalizeAngle r) = sinOf r := by
  obtain ⟨k, hk⟩ := normalizeAngle_sub_int r
  unfold sinOf
  rw [hk]
  have harg : (r - 360 * (k : ℝ)) * (Real.pi / 180)
      = r * (Real.pi / 180) - (k : ℝ) * (2 * Real.pi) := by ring
  rw [harg, Real.sin_sub_int_mul_two_pi]

/-! ### Normalization does not change the clamp geometry -/

theorem minScaleToCover_normalizeAngle (ib fb : Bounds) (r : ℝ) :
    minScaleToCover ib fb (normalizeAngle r) = minScaleToCover ib fb r := by
  unfold minScaleToCover
  rw [cosOf_normalizeAngle, sinOf_normalizeAngle]

theorem clampedScaleOf_normalizeAngle (ib fb : Bounds) (r s : ℝ) :
    clampedScaleOf ib fb (normalizeAngle r) s = clampedScaleOf ib fb r s := by
  unfold clampedScaleOf
  rw [minScaleToCover_normalizeAngle]

theorem panRangeX_normalizeAngle (ib fb : Bounds) (r cs : ℝ) :
    panRangeX ib fb (normalizeAngle r) cs = panRangeX ib fb r cs := by
  unfold panRangeX
  rw [cosOf_normalizeAngle, sinOf_normalizeAngle]

theorem panRangeY_normalizeAngle (ib fb : Bounds) (r cs : ℝ) :
    panRangeY ib fb (normalizeAngle r) cs = panRangeY ib fb r cs := by
  unfold panRangeY
  rw [cosOf_normalizeAngle, sinOf_normalizeAngle]

theorem panRangeX_nonneg (ib fb : Bounds) (r cs : ℝ) : 0 ≤ panRangeX ib fb r cs :=
  le_max_left _ _

theorem panRangeY_nonneg (ib fb : Bounds) (r cs : ℝ) : 0 ≤ panRangeY ib fb r cs :=
  le_max_left _ _

/-- Re-clamping an already clamped scale is the identity:
`max m (min (max m (min s M)) M) = max m (min s M)`. -/
theorem max_min_resolve (m M s : ℝ) :
    max m (min (max m (min s M)) M) = max m (min s M) := by
  rcases le_total m M with h | h
  · have hA : min s M ≤ M := min_le_right _ _
    have hcs : max m (min s M) ≤ M := max_le h hA
    rw [min_eq_left hcs, ← max_assoc, max_self]
  · have hA : min s M ≤ m := le_trans (min_le_right _ _) h
    rw [max_eq_left hA, min_eq_right h, max_eq_left h]

/-- Re-clamping a value already clamped into `[-pr, pr]` (with `0 ≤ pr`) is
the identity. -/
theorem clamp_interval_idem {v pr : ℝ} (h : 0 ≤ pr) :
    max (-pr) (min (max (-pr) (min v pr)) pr) = max (-pr) (min v pr) := by
  have h1 : -pr ≤ pr := by linarith
  have hle : max (-pr) (min v pr) ≤ pr := max_le h1 (min_le_right _ _)
  rw [min_eq_left hle, ← max_assoc, max_self]

/-- The scale produced by `clampTransform` is a fixed point of the scale clamp
(at the normalized rotation). -/
theorem clampedScaleOf_idem (ib fb : Bounds) (r s : ℝ) :
    clampedScaleOf ib fb (normalizeAngle r) (clampedScaleOf ib fb r s)
      = clampedScaleOf ib fb r s := by
  rw [clampedScaleOf_normalizeAngle]
  unfold clampedScaleOf
  exact max_min_resolve _ _ _

/-- Claim C2: `clampTransform` is idempotent.  For every finite transform `t`,
when image and frame bounds are both known and positive, applying
`clampTransform` twice gives the same result as applying it once, field for
field (x, y, scale, rotation, flipX, flipY). -/
theorem claim_C2_clamp_idempotent (ib fb : Bounds) (pivot : Point) (t : Transform)
    (hiw : 0 < ib.width) (hih : 0 < ib.height)
    (hfw : 0 < fb.width) (hfh : 0 < fb.height) :
    clampTransform ib fb pivot (clampTransform ib fb pivot t)
      = clampTransform ib fb pivot t := by
  have hscale2 : clampedScaleOf ib fb (clampTransform ib fb pivot t).rotation
      (clampTransform ib fb pivot t).scale = (clampTransform ib fb pivot t).scale := by
    rw [clampTransform_rotation, clampTransform_scale]
    exact clampedScaleOf_idem ib fb t.rotation t.scale
  apply Transform.ext
  · -- x field
    rw [clampTransform_x ib fb pivot (clampTransform ib fb pivot t)]
    rw [if_neg (by rw [hscale2]; exact fun h => h rfl)]
    rw [hscale2, clampTransform_rotation, panRangeX_normalizeAngle,
      clampTransform_scale]
    rw [clampTransform_x ib fb pivot t]
    exact clamp_interval_idem (panRangeX_nonneg _ _ _ _)
  · -- y field
    rw [clampTransform_y ib fb pivot (clampTransform ib fb pivot t)]
    rw [if_neg (by rw [hscale2]; exact fun h => h rfl)]
    rw [hscale2, clampTransform_rotation, panRangeY_normalizeAngle,
      clampTransform_scale]
    rw [clampTransform_y ib fb pivot t]
    exact clamp_interval_idem (panRangeY_nonneg _ _ _ _)
  · -- scale field
    rw [clampTransform_scale ib fb pivot (clampTransform ib fb pivot t), hscale2]
  · -- rotation field
    rw [clampTransform_rotation ib fb pivot (clampTransform ib fb pivot t),
      clampTransform_rotation ib fb pivot t]
    exact normalizeAngle_idem t.rotation
  · rfl
  · rfl

/-- Witness for C2 at concrete positive bounds. -/
theorem claim_C2_witness :
    (0:ℝ) < 100 ∧
      clampTransform ⟨100, 100⟩ ⟨100, 100⟩ ⟨0, 0⟩
          (clampTransform ⟨100, 100⟩ ⟨100, 100⟩ ⟨0, 0⟩ ⟨7, -3, 2, 500, true, false⟩)
        = clampTransform ⟨100, 100⟩ ⟨100, 100⟩ ⟨0, 0⟩ ⟨7, -3, 2, 500, true, false⟩ :=
  ⟨by norm_num,
    claim_C2_clamp_idempotent ⟨100, 100⟩ ⟨100, 100⟩ ⟨0, 0⟩ ⟨7, -3, 2, 500, true, false⟩
      (by norm_num) (by norm_num) (by norm_num) (by norm_num)⟩

/-- Claim C9: for every finite transform, when image and frame bounds are
known and positive, the rotation returned by `clampTransform` lies in
`(-180, 180]`; `normalizeAngle` maps every finite angle into `(-180, 180]`
and `clampTransform` applies it to the rotation of every transform it
returns. -/
theorem claim_C9_rotation_range :
    (∀ a : ℝ, -180 < normalizeAngle a ∧ normalizeAngle a ≤ 180) ∧
      ∀ (ib fb : Bounds) (pivot : Point) (t : Transform),
        0 < ib.width → 0 < ib.height → 0 < fb.width → 0 < fb.height →
          -180 < (clampTransform ib fb pivot t).rotation ∧
            (clampTransform ib fb pivot t).rotation ≤ 180 := by
  refine ⟨normalizeAngle_mem, fun ib fb pivot t _ _ _ _ => ?_⟩
  rw [clampTransform_rotation]
  exact normalizeAngle_mem t.rotation

/-- Witness for C9 at concrete positive bounds and rotation 500°. -/
theorem claim_C9_witness :
    (0:ℝ) < 100 ∧
      (-180 < (clampTransform ⟨100, 100⟩ ⟨100, 100⟩ ⟨0, 0⟩ ⟨7, -3, 2, 500, true, false⟩).rotation ∧
        (clampTransform ⟨100, 100⟩ ⟨100, 100⟩ ⟨0, 0⟩ ⟨7, -3, 2, 500, true, false⟩).rotation ≤ 180) :=
  ⟨by norm_num,
    claim_C9_rotation_range.2 ⟨100, 100⟩ ⟨100, 100⟩ ⟨0, 0⟩ ⟨7, -3, 2, 500, true, false⟩
      (by norm_num) (by norm_num) (by norm_num) (by norm_num)⟩

/-! ### Evaluation of the trigonometric helpers at rotation 0 -/

theorem cosOf_zero : cosOf 0 = 1 := by
  unfold cosOf
  rw [zero_mul, Real.cos_zero]

theorem sinOf_zero : sinOf 0 = 0 := by
  unfold sinOf
  rw [zero_mul, Real.sin_zero]

/-- Counterexample to claim C3 as stated: with a 1×1 image and a 100×100
frame at rotation 0, `minScaleToCover = 100 > MAX_ZOOM = 5`, and
`clampTransform` returns scale 100, which is not ≤ MAX_ZOOM — so the scale
does not lie in the interval `[minScaleToCover, MAX_ZOOM]` (that interval is
empty here). -/
theorem claim_C3_counterexample :
    minScaleToCover ⟨1, 1⟩ ⟨100, 100⟩ 0 = 100 ∧
      (clampTransform ⟨1, 1⟩ ⟨100, 100⟩ ⟨0, 0⟩ ⟨0, 0, 1, 0, false, false⟩).scale = 100 ∧
      ¬ ((clampTransform ⟨1, 1⟩ ⟨100, 100⟩ ⟨0, 0⟩ ⟨0, 0, 1, 0, false, false⟩).scale
          ≤ MAX_ZOOM) := by
  have hms : minScaleToCover ⟨1, 1⟩ ⟨100, 100⟩ 0 = 100 := by
    unfold minScaleToCover
    rw [cosOf_zero, sinOf_zero]
    norm_num
  have hsc : (clampTransform ⟨1, 1⟩ ⟨100, 100⟩ ⟨0, 0⟩ ⟨0, 0, 1, 0, false, false⟩).scale
      = 100 := by
    rw [clampTransform_scale]
    unfold clampedScaleOf
    rw [hms]
    rw [MAX_ZOOM]
    norm_num
  refine ⟨hms, hsc, ?_⟩
  rw [hsc, MAX_ZOOM]
  norm_num

/-- Claim C3, amended: for every finite transform, with both bounds known and
positive, the clamped scale satisfies
`minScaleToCover ≤ scale ≤ max minScaleToCover MAX_ZOOM`; it lies in
`[minScaleToCover, MAX_ZOOM]` whenever that interval is nonempty
(`minScaleToCover ≤ MAX_ZOOM`), but exceeds MAX_ZOOM when covering the frame
requires a larger scale. -/
theorem claim_C3_scale_range (ib fb : Bounds) (pivot : Point) (t : Transform)
    (hiw : 0 < ib.width) (hih : 0 < ib.height)
    (hfw : 0 < fb.width) (hfh : 0 < fb.height) :
    minScaleToCover ib fb t.rotation ≤ (clampTransform ib fb pivot t).scale ∧
      (clampTransform ib fb pivot t).scale ≤ max (minScaleToCover ib fb t.rotation) MAX_ZOOM ∧
      (minScaleToCover ib fb t.rotation ≤ MAX_ZOOM →
        (clampTransform ib fb pivot t).scale ≤ MAX_ZOOM) := by
  rw [clampTransform_scale]
  unfold clampedScaleOf
  refine ⟨le_max_left _ _, ?_, ?_⟩
  · exact max_le (le_max_left _ _) (le_trans (min_le_right _ _) (le_max_right _ _))
  · intro h
    exact max_le h (min_le_right _ _)

/-- Witness for the amended C3 at concrete positive bounds. -/
theorem claim_C3_witness :
    (0:ℝ) < 100 ∧
      (minScaleToCover ⟨100, 100⟩ ⟨100, 100⟩ (500:ℝ)
          ≤ (clampTransform ⟨100, 100⟩ ⟨100, 100⟩ ⟨0, 0⟩ ⟨7, -3, 2, 500, true, false⟩).scale ∧
        (clampTransform ⟨100, 100⟩ ⟨100, 100⟩ ⟨0, 0⟩ ⟨7, -3, 2, 500, true, false⟩).scale
            ≤ max (minScaleToCover ⟨100, 100⟩ ⟨100, 100⟩ (500:ℝ)) MAX_ZOOM ∧
        (minScaleToCover ⟨100, 100⟩ ⟨100, 100⟩ (500:ℝ) ≤ MAX_ZOOM →
          (clampTransform ⟨100, 100⟩ ⟨100, 100⟩ ⟨0, 0⟩ ⟨7, -3, 2, 500, true, false⟩).scale
            ≤ MAX_ZOOM)) :=
  ⟨by norm_num,
    claim_C3_scale_range ⟨100, 100⟩ ⟨100, 100⟩ ⟨0, 0⟩ ⟨7, -3, 2, 500, true, false⟩
      (by norm_num) (by norm_num) (by norm_num) (by norm_num)⟩

/-! ### Concrete evaluation helpers -/

theorem normalizeAngle_zero : normalizeAngle 0 = 0 :=
  normalizeAngle_eq_self (by norm_num) (by norm_num)

theorem minScaleToCover_unit : minScaleToCover ⟨100, 100⟩ ⟨100, 100⟩ 0 = 1 := by
  unfold minScaleToCover
  rw [cosOf_zero, sinOf_zero]
  norm_num

theorem clampedScaleOf_unit : clampedScaleOf ⟨100, 100⟩ ⟨100, 100⟩ 0 1 = 1 := by
  unfold clampedScaleOf
  rw [minScaleToCover_unit, MAX_ZOOM]
  norm_num

theorem panRangeX_unit : panRangeX ⟨100, 100⟩ ⟨100, 100⟩ 0 1 = 0 := by
  unfold panRangeX
  rw [cosOf_zero, sinOf_zero]
  norm_num

theorem panRangeY_unit : panRangeY ⟨100, 100⟩ ⟨100, 100⟩ 0 1 = 0 := by
  unfold panRangeY
  rw [cosOf_zero, sinOf_zero]
  norm_num

/-- The identity-like transform is a fixed point of `clampTransform` for a
100×100 image in a 100×100 frame. -/
theorem clampTransform_fixed_at_unit :
    clampTransform ⟨100, 100⟩ ⟨100, 100⟩ ⟨0, 0⟩ ⟨0, 0, 1, 0, false, false⟩
      = ⟨0, 0, 1, 0, false, false⟩ := by
  apply Transform.ext
  · rw [clampTransform_x]
    simp only [clampedScaleOf_unit, panRangeX_unit]
    norm_num
  · rw [clampTransform_y]
    simp only [clampedScaleOf_unit, panRangeY_unit]
    norm_num
  · rw [clampTransform_scale]
    exact clampedScaleOf_unit
  · rw [clampTransform_rotation]
    exact normalizeAngle_zero
  · rfl
  · rfl

/-- Counterexample to claim C6 as stated: with image bounds unknown,
`rotateBy(90)` is not a no-op — the stored rotation changes from 0 to 90
because `clampTransform` returns its (already modified) argument unchanged. -/
theorem claim_C6_counterexample :
    rotateByOpt none (some ⟨100, 100⟩) 90 ⟨0, 0, 1, 0, false, false⟩
      ≠ (⟨0, 0, 1, 0, false, false⟩ : Transform) := by
  intro h
  have hrot : (rotateByOpt none (some ⟨100, 100⟩) 90
      (⟨0, 0, 1, 0, false, false⟩ : Transform)).rotation = 0 := by rw [h]
  simp only [rotateByOpt, clampTransformOpt] at hrot
  norm_num at hrot

/-- Claim C6, amended: when image or frame bounds are unknown,
`clampTransform` returns its input unchanged and `resetTransform` leaves the
state untouched; however `rotateBy`, `setRotation`, `flip` and the pan update
still apply their raw (unclamped) modification to the state, so they are not
no-ops. -/
theorem claim_C6_missing_bounds (ib fb : Option Bounds) (pivot : Point)
    (t state : Transform) (d : ℝ) (h : ib = none ∨ fb = none) :
    clampTransformOpt ib fb pivot t = t ∧
      resetTransformOpt ib fb pivot state = state ∧
      rotateByOpt ib fb d state = { state with rotation := state.rotation + d } ∧
      setRotationOpt ib fb d state = { state with rotation := d } ∧
      (∀ ax : Axis, flipOpt ib fb pivot ax state =
        { state with
          flipX := if ax = Axis.x then !state.flipX else state.flipX
          flipY := if ax = Axis.y then !state.flipY else state.flipY }) ∧
      (∀ dx dy : ℝ, onPanOpt ib fb pivot dx dy state =
        { state with x := state.x + dx, y := state.y + dy }) := by
  rcases h with h | h
  · subst h
    exact ⟨rfl, rfl, rfl, rfl, fun _ => rfl, fun _ _ => rfl⟩
  · subst h
    cases ib with
    | none => exact ⟨rfl, rfl, rfl, rfl, fun _ => rfl, fun _ _ => rfl⟩
    | some ibb => exact ⟨rfl, rfl, rfl, rfl, fun _ => rfl, fun _ _ => rfl⟩

/-- Witness for the amended C6 with image bounds missing. -/
theorem claim_C6_witness :
    clampTransformOpt none (some ⟨100, 100⟩) ⟨0, 0⟩ ⟨7, -3, 2, 45, true, false⟩
        = (⟨7, -3, 2, 45, true, false⟩ : Transform) ∧
      resetTransformOpt none (some ⟨100, 100⟩) ⟨0, 0⟩ ⟨7, -3, 2, 45, true, false⟩
        = (⟨7, -3, 2, 45, true, false⟩ : Transform) ∧
      rotateByOpt none (some ⟨100, 100⟩) 90 ⟨7, -3, 2, 45, true, false⟩
        = { (⟨7, -3, 2, 45, true, false⟩ : Transform) with
            rotation := (⟨7, -3, 2, 45, true, false⟩ : Transform).rotation + 90 } ∧
      setRotationOpt none (some ⟨100, 100⟩) 90 ⟨7, -3, 2, 45, true, false⟩
        = { (⟨7, -3, 2, 45, true, false⟩ : Transform) with rotation := 90 } ∧
      (∀ ax : Axis, flipOpt none (some ⟨100, 100⟩) ⟨0, 0⟩ ax ⟨7, -3, 2, 45, true, false⟩ =
        { (⟨7, -3, 2, 45, true, false⟩ : Transform) with
          flipX := if ax = Axis.x then !true else true
          flipY := if ax = Axis.y then !false else false }) ∧
      (∀ dx dy : ℝ, onPanOpt none (some ⟨100, 100⟩) ⟨0, 0⟩ dx dy ⟨7, -3, 2, 45, true, false⟩ =
        { (⟨7, -3, 2, 45, true, false⟩ : Transform) with x := 7 + dx, y := -3 + dy }) :=
  claim_C6_missing_bounds none (some ⟨100, 100⟩) ⟨0, 0⟩
    ⟨7, -3, 2, 45, true, false⟩ ⟨7, -3, 2, 45, true, false⟩ 90 (Or.inl rfl)

/-- Claim C10: `clampTransform` neither reads nor modifies the flip flags —
they are returned exactly as supplied and the other output fields do not
depend on them; consequently `flip` toggles exactly the requested flag and,
applied to an already clamped transform, leaves x, y, scale and rotation
unchanged. -/
theorem claim_C10_flip_independence (ib fb : Bounds) (pivot : Point)
    (t : Transform) (bx bY : Bool) :
    ((clampTransform ib fb pivot t).flipX = t.flipX ∧
      (clampTransform ib fb pivot t).flipY = t.flipY) ∧
    ((clampTransform ib fb pivot { t with flipX := bx, flipY := bY }).x
        = (clampTransform ib fb pivot t).x ∧
      (clampTransform ib fb pivot { t with flipX := bx, flipY := bY }).y
        = (clampTransform ib fb pivot t).y ∧
      (clampTransform ib fb pivot { t with flipX := bx, flipY := bY }).scale
        = (clampTransform ib fb pivot t).scale ∧
      (clampTransform ib fb pivot { t with flipX := bx, flipY := bY }).rotation
        = (clampTransform ib fb pivot t).rotation) ∧
    (clampTransform ib fb pivot t = t →
      ∀ ax : Axis,
        (flipOpt (some ib) (some fb) pivot ax t).x = t.x ∧
        (flipOpt (some ib) (some fb) pivot ax t).y = t.y ∧
        (flipOpt (some ib) (some fb) pivot ax t).scale = t.scale ∧
        (flipOpt (some ib) (some fb) pivot ax t).rotation = t.rotation ∧
        (flipOpt (some ib) (some fb) pivot ax t).flipX
            = (if ax = Axis.x then !t.flipX else t.flipX) ∧
        (flipOpt (some ib) (some fb) pivot ax t).flipY
            = (if ax = Axis.y then !t.flipY else t.flipY)) := by
  refine ⟨⟨rfl, rfl⟩, ⟨rfl, rfl, rfl, rfl⟩, fun hfix ax => ?_⟩
  have hx : (flipOpt (some ib) (some fb) pivot ax t).x
      = (clampTransform ib fb pivot t).x := rfl
  have hy : (flipOpt (some ib) (some fb) pivot ax t).y
      = (clampTransform ib fb pivot t).y := rfl
  have hs : (flipOpt (some ib) (some fb) pivot ax t).scale
      = (clampTransform ib fb pivot t).scale := rfl
  have hr : (flipOpt (some ib) (some fb) pivot ax t).rotation
      = (clampTransform ib fb pivot t).rotation := rfl
  refine ⟨?_, ?_, ?_, ?_, rfl, rfl⟩
  · rw [hx, hfix]
  · rw [hy, hfix]
  · rw [hs, hfix]
  · rw [hr, hfix]

/-- Witness for C10: flipping x on an already clamped transform keeps
x, y, scale, rotation and toggles exactly flipX. -/
theorem claim_C10_witness :
    (flipOpt (some ⟨100, 100⟩) (some ⟨100, 100⟩) ⟨0, 0⟩ Axis.x
        ⟨0, 0, 1, 0, false, false⟩).x = (⟨0, 0, 1, 0, false, false⟩ : Transform).x ∧
      (flipOpt (some ⟨100, 100⟩) (some ⟨100, 100⟩) ⟨0, 0⟩ Axis.x
        ⟨0, 0, 1, 0, false, false⟩).y = (⟨0, 0, 1, 0, false, false⟩ : Transform).y ∧
      (flipOpt (some ⟨100, 100⟩) (some ⟨100, 100⟩) ⟨0, 0⟩ Axis.x
        ⟨0, 0, 1, 0, false, false⟩).scale = (⟨0, 0, 1, 0, false, false⟩ : Transform).scale ∧
      (flipOpt (some ⟨100, 100⟩) (some ⟨100, 100⟩) ⟨0, 0⟩ Axis.x
        ⟨0, 0, 1, 0, false, false⟩).rotation
          = (⟨0, 0, 1, 0, false, false⟩ : Transform).rotation ∧
      (flipOpt (some ⟨100, 100⟩) (some ⟨100, 100⟩) ⟨0, 0⟩ Axis.x
        ⟨0, 0, 1, 0, false, false⟩).flipX
          = (if Axis.x = Axis.x then !(⟨0, 0, 1, 0, false, false⟩ : Transform).flipX
             else (⟨0, 0, 1, 0, false, false⟩ : Transform).flipX) ∧
      (flipOpt (some ⟨100, 100⟩) (some ⟨100, 100⟩) ⟨0, 0⟩ Axis.x
        ⟨0, 0, 1, 0, false, false⟩).flipY
          = (if Axis.x = Axis.y then !(⟨0, 0, 1, 0, false, false⟩ : Transform).flipY
             else (⟨0, 0, 1, 0, false, false⟩ : Transform).flipY) :=
  (claim_C10_flip_independence ⟨100, 100⟩ ⟨100, 100⟩ ⟨0, 0⟩
      ⟨0, 0, 1, 0, false, false⟩ false false).2.2 clampTransform_fixed_at_unit Axis.x

/-! ### Claim C1: the annotation inverse mapping -/

theorem cosOf_ninety : cosOf 90 = 0 := by
  unfold cosOf
  rw [show (90:ℝ) * (Real.pi / 180) = Real.pi / 2 by ring, Real.cos_pi_div_two]

theorem sinOf_ninety : sinOf 90 = 1 := by
  unfold sinOf
  rw [show (90:ℝ) * (Real.pi / 180) = Real.pi / 2 by ring, Real.sin_pi_div_two]

/-- Counterexample to claim C1 as stated: for the displayed (CSS) order
`translate ∘ rotate ∘ scale ∘ flip`, the round trip through
`getPointInImageSpace` is not the identity when a flip is combined with a
rotation.  With a 100×100 image, `t = {x:0, y:0, scale:1, rotation:90°,
flipX:true}` and the image point `(60, 50)`, mapping forward and back yields
`(40, 50)`. -/
theorem claim_C1_counterexample :
    (getPointInImageSpace ⟨100, 100⟩ ⟨0, 0, 1, 90, true, false⟩
        (forwardCss ⟨100, 100⟩ ⟨0, 0, 1, 90, true, false⟩ ⟨60, 50⟩)).x = 40 ∧
      (getPointInImageSpace ⟨100, 100⟩ ⟨0, 0, 1, 90, true, false⟩
        (forwardCss ⟨100, 100⟩ ⟨0, 0, 1, 90, true, false⟩ ⟨60, 50⟩)).x ≠ 60 := by
  have hc : Real.cos (-(90:ℝ) * (Real.pi / 180)) = 0 := by
    rw [show (-(90:ℝ)) * (Real.pi / 180) = -(Real.pi / 2) by ring, Real.cos_neg,
      Real.cos_pi_div_two]
  have hs : Real.sin (-(90:ℝ) * (Real.pi / 180)) = -1 := by
    rw [show (-(90:ℝ)) * (Real.pi / 180) = -(Real.pi / 2) by ring, Real.sin_neg,
      Real.sin_pi_div_two]
  have hx : (getPointInImageSpace ⟨100, 100⟩ ⟨0, 0, 1, 90, true, false⟩
      (forwardCss ⟨100, 100⟩ ⟨0, 0, 1, 90, true, false⟩ ⟨60, 50⟩)).x = 40 := by
    simp only [getPointInImageSpace, forwardCss, cosOf_ninety, sinOf_ninety, hc, hs]
    norm_num
  exact ⟨hx, by rw [hx]; norm_num⟩

/-- Claim C1, amended: `getPointInImageSpace` is the exact algebraic inverse
of the forward transform that applies flip before rotation — the canvas
export order `translate ∘ flip ∘ rotate ∘ scale` of `handlePrint` — for every
transform with nonzero scale and every point, in both directions.  (For the
CSS preview order `translate ∘ rotate ∘ scale ∘ flip` the round trip fails
whenever a flip is combined with a rotation whose sine is nonzero, see the
counterexample.) -/
theorem claim_C1_inverse_of_canvas_order (ib : Bounds) (t : Transform)
    (p v : Point) (hs : t.scale ≠ 0) :
    getPointInImageSpace ib t (forwardCanvas ib t p) = p ∧
      forwardCanvas ib t (getPointInImageSpace ib t v) = v := by
  have hpyth : sinOf t.rotation ^ 2 + cosOf t.rotation ^ 2 = 1 :=
    Real.sin_sq_add_cos_sq _
  have hcneg : Real.cos (-t.rotation * (Real.pi / 180)) = cosOf t.rotation := by
    unfold cosOf
    rw [show -t.rotation * (Real.pi / 180) = -(t.rotation * (Real.pi / 180)) by ring,
      Real.cos_neg]
  have hsneg : Real.sin (-t.rotation * (Real.pi / 180)) = -sinOf t.rotation := by
    unfold sinOf
    rw [show -t.rotation * (Real.pi / 180) = -(t.rotation * (Real.pi / 180)) by ring,
      Real.sin_neg]
  have hcancel : ∀ A : ℝ, t.scale * (A / t.scale) = A := fun A => mul_div_cancel₀ A hs
  constructor
  · apply Point.ext
    · simp only [getPointInImageSpace, forwardCanvas, hcneg, hsneg]
      cases hfx : t.flipX <;> cases hfy : t.flipY <;>
        simp only [Bool.false_eq_true, if_true, if_false, add_sub_cancel_left,
          neg_mul, one_mul, neg_div_neg_eq, div_neg, div_one, neg_neg] <;>
        · rw [← eq_sub_iff_add_eq, div_eq_iff hs]
          linear_combination (t.scale * (p.x - ib.width / 2)) * hpyth
    · simp only [getPointInImageSpace, forwardCanvas, hcneg, hsneg]
      cases hfx : t.flipX <;> cases hfy : t.flipY <;>
        simp only [Bool.false_eq_true, if_true, if_false, add_sub_cancel_left,
          neg_mul, one_mul, neg_div_neg_eq, div_neg, div_one, neg_neg] <;>
        · rw [← eq_sub_iff_add_eq, div_eq_iff hs]
          linear_combination (t.scale * (p.y - ib.height / 2)) * hpyth
  · apply Point.ext
    · simp only [getPointInImageSpace, forwardCanvas, hcneg, hsneg]
      cases hfx : t.flipX <;> cases hfy : t.flipY <;>
        simp only [Bool.false_eq_true, if_true, if_false, add_sub_cancel_right,
          hcancel, neg_mul, one_mul, neg_div_neg_eq, div_neg, div_one, neg_neg] <;>
        · linear_combination (v.x - t.x) * hpyth
    · simp only [getPointInImageSpace, forwardCanvas, hcneg, hsneg]
      cases hfx : t.flipX <;> cases hfy : t.flipY <;>
        simp only [Bool.false_eq_true, if_true, if_false, add_sub_cancel_right,
          hcancel, neg_mul, one_mul, neg_div_neg_eq, div_neg, div_one, neg_neg] <;>
        · linear_combination (v.y - t.y) * hpyth

/-- Witness for the amended C1 at a concrete transform with nonzero scale. -/
theorem claim_C1_witness :
    (2:ℝ) ≠ 0 ∧
      (getPointInImageSpace ⟨100, 100⟩ ⟨5, -7, 2, 33, true, true⟩
          (forwardCanvas ⟨100, 100⟩ ⟨5, -7, 2, 33, true, true⟩ ⟨60, 50⟩) = ⟨60, 50⟩ ∧
        forwardCanvas ⟨100, 100⟩ ⟨5, -7, 2, 33, true, true⟩
          (getPointInImageSpace ⟨100, 100⟩ ⟨5, -7, 2, 33, true, true⟩ ⟨8, 9⟩) = ⟨8, 9⟩) :=
  ⟨by norm_num,
    claim_C1_inverse_of_canvas_order ⟨100, 100⟩ ⟨5, -7, 2, 33, true, true⟩
      ⟨60, 50⟩ ⟨8, 9⟩ (by norm_num)⟩

/-! ### Claim C4: pivot-preserving wheel zoom -/

/-- Claim C4: after a single `onWheel` event with the pointer at
frame-centered position `(mouseX, mouseY)`, whenever the subsequent
`clampTransform` call does not alter the proposed scale or pan, the image
point that was displayed under the pointer before the event is still
displayed under it afterwards. -/
theorem claim_C4_wheel_pivot_preserved (ib fb : Bounds) (deltaY mouseX mouseY : ℝ)
    (t : Transform) (w : Point)
    (hunder : forwardCss ib t w = ⟨mouseX, mouseY⟩)
    (hx : (clampTransform ib fb ⟨mouseX, mouseY⟩ (onWheelProposed deltaY mouseX mouseY t)).x
        = (onWheelProposed deltaY mouseX mouseY t).x)
    (hy : (clampTransform ib fb ⟨mouseX, mouseY⟩ (onWheelProposed deltaY mouseX mouseY t)).y
        = (onWheelProposed deltaY mouseX mouseY t).y)
    (hsc : (clampTransform ib fb ⟨mouseX, mouseY⟩ (onWheelProposed deltaY mouseX mouseY t)).scale
        = (onWheelProposed deltaY mouseX mouseY t).scale) :
    forwardCss ib
        (clampTransform ib fb ⟨mouseX, mouseY⟩ (onWheelProposed deltaY mouseX mouseY t)) w
      = ⟨mouseX, mouseY⟩ := by
  have hux : (forwardCss ib t w).x = mouseX := by rw [hunder]
  have huy : (forwardCss ib t w).y = mouseY := by rw [hunder]
  simp only [forwardCss] at hux huy
  set T := clampTransform ib fb ⟨mouseX, mouseY⟩ (onWheelProposed deltaY mouseX mouseY t)
    with hT
  have hTx : T.x = mouseX + (t.x - mouseX) * (1 - deltaY * (1 / 1000)) := hx
  have hTy : T.y = mouseY + (t.y - mouseY) * (1 - deltaY * (1 / 1000)) := hy
  have hTs : T.scale = t.scale * (1 - deltaY * (1 / 1000)) := hsc
  have hTrot : T.rotation = normalizeAngle t.rotation :=
    clampTransform_rotation ib fb ⟨mouseX, mouseY⟩ (onWheelProposed deltaY mouseX mouseY t)
  have hTfx : T.flipX = t.flipX := rfl
  have hTfy : T.flipY = t.flipY := rfl
  apply Point.ext
  · simp only [forwardCss]
    rw [hTx, hTs, hTrot, hTfx, hTfy, cosOf_normalizeAngle, sinOf_normalizeAngle]
    linear_combination (1 - deltaY * (1 / 1000)) * hux
  · simp only [forwardCss]
    rw [hTy, hTs, hTrot, hTfx, hTfy, cosOf_normalizeAngle, sinOf_normalizeAngle]
    linear_combination (1 - deltaY * (1 / 1000)) * huy

/-- Witness for C4: a wheel zoom by factor 1.1 on the fitted transform, with
the pointer at the frame center; the clamp leaves the proposal unchanged and
the image center stays under the pointer. -/
theorem claim_C4_witness :
    forwardCss ⟨100, 100⟩ ⟨0, 0, 1, 0, false, false⟩ ⟨50, 50⟩ = ⟨0, 0⟩ ∧
      forwardCss ⟨100, 100⟩
        (clampTransform ⟨100, 100⟩ ⟨100, 100⟩ ⟨0, 0⟩
          (onWheelProposed (-100) 0 0 ⟨0, 0, 1, 0, false, false⟩)) ⟨50, 50⟩ = ⟨0, 0⟩ := by
  have hfwd : forwardCss ⟨100, 100⟩ ⟨0, 0, 1, 0, false, false⟩ ⟨50, 50⟩ = ⟨0, 0⟩ := by
    apply Point.ext <;> norm_num [forwardCss]
  have hx : (clampTransform ⟨100, 100⟩ ⟨100, 100⟩ ⟨0, 0⟩
      (onWheelProposed (-100) 0 0 ⟨0, 0, 1, 0, false, false⟩)).x
        = (onWheelProposed (-100) 0 0 ⟨0, 0, 1, 0, false, false⟩).x := by
    rw [clampTransform_x]
    simp only [onWheelProposed]
    norm_num [clampedScaleOf, minScaleToCover, panRangeX, cosOf_zero, sinOf_zero, MAX_ZOOM]
  have hy : (clampTransform ⟨100, 100⟩ ⟨100, 100⟩ ⟨0, 0⟩
      (onWheelProposed (-100) 0 0 ⟨0, 0, 1, 0, false, false⟩)).y
        = (onWheelProposed (-100) 0 0 ⟨0, 0, 1, 0, false, false⟩).y := by
    rw [clampTransform_y]
    simp only [onWheelProposed]
    norm_num [clampedScaleOf, minScaleToCover, panRangeY, cosOf_zero, sinOf_zero, MAX_ZOOM]
  have hsc : (clampTransform ⟨100, 100⟩ ⟨100, 100⟩ ⟨0, 0⟩
      (onWheelProposed (-100) 0 0 ⟨0, 0, 1, 0, false, false⟩)).scale
        = (onWheelProposed (-100) 0 0 ⟨0, 0, 1, 0, false, false⟩).scale := by
    rw [clampTransform_scale]
    simp only [onWheelProposed]
    norm_num [clampedScaleOf, minScaleToCover, cosOf_zero, sinOf_zero, MAX_ZOOM]
  exact ⟨hfwd, claim_C4_wheel_pivot_preserved ⟨100, 100⟩ ⟨100, 100⟩ (-100) 0 0
    ⟨0, 0, 1, 0, false, false⟩ ⟨50, 50⟩ hfwd hx hy hsc⟩

/-! ### Claim C7: degenerate geometry -/

/-- Claim C7 evaluation at the failing input: with a zero image width
(image 0×100, frame 100×100, rotation 0 so cos = 1 and sin = 0, transform
x = y = 0, scale = 1, pivot at the origin), `minScaleToCoverX = 100 / 0 =
Infinity`, so `clampTransform` returns scale `Infinity` and the pivot
correction computes `0 + (0 - 0) * Infinity = NaN` for both pan fields —
there is no divide-by-zero guard and the transform is poisoned. -/
theorem claim_C7_zero_dims_poison :
    clampXYScaleJS (JSNum.num 0) (JSNum.num 100) (JSNum.num 100) (JSNum.num 100)
        (JSNum.num 1) (JSNum.num 0) (JSNum.num 0) (JSNum.num 0) (JSNum.num 0)
        (JSNum.num 0) (JSNum.num 1)
      = (JSNum.nan, JSNum.nan, JSNum.posInf) := by
  norm_num [clampXYScaleJS, JSNum.add, JSNum.mul, JSNum.div, JSNum.abs, JSNum.max,
    JSNum.min, JSNum.sub, JSNum.neg, JSNum.strictNeq, JSNum.isNan]

/-! ### Claim C8: sticker drag clamp -/

/-- Counterexample to claim C8 as stated: an 80×80 sticker in a 70×70 frame
(possible, since `handleAddSticker` enforces a minimum sticker size of 80px).
The per-axis clamp interval `[-frameHalf+overlayHalf, frameHalf-overlayHalf]`
is `[5, -5]` (empty); `Math.max(5, Math.min(x, -5))` returns 5 for every
drag, the bounding box `[−35, 45]` sticks out of the frame `[−35, 35]`, and a
drag past the right edge does not yield `frameHalfW − overlayHalfW = -5`. -/
theorem claim_C8_counterexample :
    (dragSticker ⟨70, 70⟩ ⟨0, 0, 80, 80, 0, 1⟩ 0 0 0 0).1 = 5 ∧
      ¬ (|(dragSticker ⟨70, 70⟩ ⟨0, 0, 80, 80, 0, 1⟩ 0 0 0 0).1| + 80 * 1 / 2 ≤ 70 / 2) ∧
      (dragSticker ⟨70, 70⟩ ⟨0, 0, 80, 80, 0, 1⟩ 0 0 100 0).1 ≠ 70 / 2 - 80 * 1 / 2 := by
  norm_num [dragSticker]

/-- Claim C8, amended: provided the sticker's scaled width and height do not
exceed the frame's, every drag lands in
`[-frameHalf+overlayHalf, frameHalf-overlayHalf]` on each axis independently,
the sticker's full bounding box stays within the frame's bounding box for all
drag deltas, and a drag at or past the right edge yields exactly
`x = frameHalfW − overlayHalfW`. -/
theorem claim_C8_drag_clamp (fb : BoundsQ) (s : Sticker) (startX startY dx dy : ℚ)
    (hw : s.width * s.scale ≤ fb.width) (hh : s.height * s.scale ≤ fb.height) :
    (-(fb.width / 2) + s.width * s.scale / 2 ≤ (dragSticker fb s startX startY dx dy).1 ∧
        (dragSticker fb s startX startY dx dy).1 ≤ fb.width / 2 - s.width * s.scale / 2) ∧
      (-(fb.height / 2) + s.height * s.scale / 2 ≤ (dragSticker fb s startX startY dx dy).2 ∧
        (dragSticker fb s startX startY dx dy).2 ≤ fb.height / 2 - s.height * s.scale / 2) ∧
      (|(dragSticker fb s startX startY dx dy).1| + s.width * s.scale / 2 ≤ fb.width / 2 ∧
        |(dragSticker fb s startX startY dx dy).2| + s.height * s.scale / 2 ≤ fb.height / 2) ∧
      (fb.width / 2 - s.width * s.scale / 2 ≤ startX + dx →
        (dragSticker fb s startX startY dx dy).1 = fb.width / 2 - s.width * s.scale / 2) := by
  simp only [dragSticker]
  have hlohiX : -(fb.width / 2) + s.width * s.scale / 2
      ≤ fb.width / 2 - s.width * s.scale / 2 := by linarith
  have hlohiY : -(fb.height / 2) + s.height * s.scale / 2
      ≤ fb.height / 2 - s.height * s.scale / 2 := by linarith
  have hx1 : -(fb.width / 2) + s.width * s.scale / 2
      ≤ max (-(fb.width / 2) + s.width * s.scale / 2)
          (min (startX + dx) (fb.width / 2 - s.width * s.scale / 2)) := le_max_left _ _
  have hx2 : max (-(fb.width / 2) + s.width * s.scale / 2)
        (min (startX + dx) (fb.width / 2 - s.width * s.scale / 2))
      ≤ fb.width / 2 - s.width * s.scale / 2 := max_le hlohiX (min_le_right _ _)
  have hy1 : -(fb.height / 2) + s.height * s.scale / 2
      ≤ max (-(fb.height / 2) + s.height * s.scale / 2)
          (min (startY + dy) (fb.height / 2 - s.height * s.scale / 2)) := le_max_left _ _
  have hy2 : max (-(fb.height / 2) + s.height * s.scale / 2)
        (min (startY + dy) (fb.height / 2 - s.height * s.scale / 2))
      ≤ fb.height / 2 - s.height * s.scale / 2 := max_le hlohiY (min_le_right _ _)
  refine ⟨⟨hx1, hx2⟩, ⟨hy1, hy2⟩, ⟨?_, ?_⟩, ?_⟩
  · have habs : |max (-(fb.width / 2) + s.width * s.scale / 2)
        (min (startX + dx) (fb.width / 2 - s.width * s.scale / 2))|
          ≤ fb.width / 2 - s.width * s.scale / 2 :=
      abs_le.mpr ⟨by linarith, hx2⟩
    linarith
  · have habs : |max (-(fb.height / 2) + s.height * s.scale / 2)
        (min (startY + dy) (fb.height / 2 - s.height * s.scale / 2))|
          ≤ fb.height / 2 - s.height * s.scale / 2 :=
      abs_le.mpr ⟨by linarith, hy2⟩
    linarith
  · intro hpast
    rw [min_eq_right hpast, max_eq_right hlohiX]

/-- Witness for the amended C8: a 20×20 sticker in a 100×100 frame dragged
far past the right edge. -/
theorem claim_C8_witness :
    (20 * 1 ≤ (100:ℚ) ∧ 20 * 1 ≤ (100:ℚ)) ∧
      ((-(100 / 2 : ℚ) + 20 * 1 / 2 ≤ (dragSticker ⟨100, 100⟩ ⟨0, 0, 20, 20, 0, 1⟩ 0 0 1000 0).1 ∧
          (dragSticker ⟨100, 100⟩ ⟨0, 0, 20, 20, 0, 1⟩ 0 0 1000 0).1 ≤ 100 / 2 - 20 * 1 / 2) ∧
        (-(100 / 2 : ℚ) + 20 * 1 / 2 ≤ (dragSticker ⟨100, 100⟩ ⟨0, 0, 20, 20, 0, 1⟩ 0 0 1000 0).2 ∧
          (dragSticker ⟨100, 100⟩ ⟨0, 0, 20, 20, 0, 1⟩ 0 0 1000 0).2 ≤ 100 / 2 - 20 * 1 / 2) ∧
        (|(dragSticker ⟨100, 100⟩ ⟨0, 0, 20, 20, 0, 1⟩ 0 0 1000 0).1| + 20 * 1 / 2 ≤ 100 / 2 ∧
          |(dragSticker ⟨100, 100⟩ ⟨0, 0, 20, 20, 0, 1⟩ 0 0 1000 0).2| + 20 * 1 / 2 ≤ 100 / 2) ∧
        ((100 / 2 : ℚ) - 20 * 1 / 2 ≤ 0 + 1000 →
          (dragSticker ⟨100, 100⟩ ⟨0, 0, 20, 20, 0, 1⟩ 0 0 1000 0).1 = 100 / 2 - 20 * 1 / 2)) :=
  ⟨⟨by norm_num, by norm_num⟩,
    claim_C8_drag_clamp ⟨100, 100⟩ ⟨0, 0, 20, 20, 0, 1⟩ 0 0 1000 0
      (by norm_num) (by norm_num)⟩

/-! ### Claim C5: style merge -/

theorem ite_gt_one_eq_min (a : ℚ) : (if a > 1 then 1 else a) = min a 1 := by
  rcases le_or_lt a 1 with h | h
  · rw [if_neg (not_lt.mpr h), min_eq_left h]
  · rw [if_pos h, min_eq_right h.le]

/-- One loop iteration, described field by field: brightness, contrast and
saturate multiply by the entry's numeric value when its name matches, sepia
adds and clamps at 1, and everything else goes to `otherFilters`. -/
theorem applyPresetFilter_spec (acc : MergedSettings × List String) (f : String) :
    (applyPresetFilter acc f).1.brightness
        = acc.1.brightness * ((parsedNumericValue "brightness" f).getD 1) ∧
      (applyPresetFilter acc f).1.contrast
        = acc.1.contrast * ((parsedNumericValue "contrast" f).getD 1) ∧
      (applyPresetFilter acc f).1.saturate
        = acc.1.saturate * ((parsedNumericValue "saturate" f).getD 1) ∧
      (applyPresetFilter acc f).1.sepia
        = ((parsedNumericValue "sepia" f).elim acc.1.sepia fun v => min (acc.1.sepia + v) 1) ∧
      (applyPresetFilter acc f).2 = (if isPushed f then acc.2 ++ [f] else acc.2) := by
  unfold applyPresetFilter parsedNumericValue isPushed
  cases hp : parseFilterParts f with
  | none => simp
  | some nv =>
    obtain ⟨n, vs⟩ := nv
    cases hv : parseFloatQ vs with
    | none => simp [hv, ite_self]
    | some v =>
      by_cases hb : n = "brightness"
      · subst hb
        have hmem : "brightness" ∈ finetuneFilterNames := by decide
        simp [hv, hmem]
      · by_cases hc : n = "contrast"
        · subst hc
          have hmem : "contrast" ∈ finetuneFilterNames := by decide
          simp [hv, hmem, hb]
        · by_cases hsat : n = "saturate"
          · subst hsat
            have hmem : "saturate" ∈ finetuneFilterNames := by decide
            simp [hv, hmem, hb, hc]
          · by_cases hsep : n = "sepia"
            · subst hsep
              have hmem : "sepia" ∈ finetuneFilterNames := by decide
              simp [hv, hmem, hb, hc, hsat, ite_gt_one_eq_min]
            · have hmem : n ∉ finetuneFilterNames := by
                simp [finetuneFilterNames, hb, hc, hsat, hsep]
              simp [hv, hmem, hb, hc, hsat, hsep]

theorem foldl_merge_brightness (L : List String) (acc : MergedSettings × List String) :
    (L.foldl applyPresetFilter acc).1.brightness
      = acc.1.brightness * (L.filterMap (parsedNumericValue "brightness")).prod := by
  induction L generalizing acc with
  | nil => simp
  | cons f L ih =>
    rw [List.foldl_cons, ih, (applyPresetFilter_spec acc f).1]
    cases hp : parsedNumericValue "brightness" f with
    | none => simp [List.filterMap_cons, hp]
    | some v =>
      simp only [List.filterMap_cons, hp, Option.getD_some, List.prod_cons]
      ring

theorem foldl_merge_contrast (L : List String) (acc : MergedSettings × List String) :
    (L.foldl applyPresetFilter acc).1.contrast
      = acc.1.contrast * (L.filterMap (parsedNumericValue "contrast")).prod := by
  induction L generalizing acc with
  | nil => simp
  | cons f L ih =>
    rw [List.foldl_cons, ih, (applyPresetFilter_spec acc f).2.1]
    cases hp : parsedNumericValue "contrast" f with
    | none => simp [List.filterMap_cons, hp]
    | some v =>
      simp only [List.filterMap_cons, hp, Option.getD_some, List.prod_cons]
      ring

theorem foldl_merge_saturate (L : List String) (acc : MergedSettings × List String) :
    (L.foldl applyPresetFilter acc).1.saturate
      = acc.1.saturate * (L.filterMap (parsedNumericValue "saturate")).prod := by
  induction L generalizing acc with
  | nil => simp
  | cons f L ih =>
    rw [List.foldl_cons, ih, (applyPresetFilter_spec acc f).2.2.1]
    cases hp : parsedNumericValue "saturate" f with
    | none => simp [List.filterMap_cons, hp]
    | some v =>
      simp only [List.filterMap_cons, hp, Option.getD_some, List.prod_cons]
      ring

theorem foldl_merge_sepia_nil (L : List String) (acc : MergedSettings × List String)
    (h : L.filterMap (parsedNumericValue "sepia") = []) :
    (L.foldl applyPresetFilter acc).1.sepia = acc.1.sepia := by
  induction L generalizing acc with
  | nil => simp
  | cons f L ih =>
    cases hp : parsedNumericValue "sepia" f with
    | some v => simp [List.filterMap_cons, hp] at h
    | none =>
      have hL : L.filterMap (parsedNumericValue "sepia") = [] := by
        simpa [List.filterMap_cons, hp] using h
      rw [List.foldl_cons, ih _ hL, (applyPresetFilter_spec acc f).2.2.2.1, hp]
      rfl

theorem foldl_merge_sepia_single (L : List String) (acc : MergedSettings × List String)
    (v : ℚ) (h : L.filterMap (parsedNumericValue "sepia") = [v]) :
    (L.foldl applyPresetFilter acc).1.sepia = min (acc.1.sepia + v) 1 := by
  induction L generalizing acc with
  | nil => simp at h
  | cons f L ih =>
    cases hp : parsedNumericValue "sepia" f with
    | some w =>
      have h2 : w :: L.filterMap (parsedNumericValue "sepia") = [v] := by
        simpa [List.filterMap_cons, hp] using h
      obtain ⟨rfl, hnil⟩ : w = v ∧ L.filterMap (parsedNumericValue "sepia") = [] :=
        ⟨(List.cons_eq_cons.mp h2).1, (List.cons_eq_cons.mp h2).2⟩
      rw [List.foldl_cons, foldl_merge_sepia_nil L _ hnil,
        (applyPresetFilter_spec acc f).2.2.2.1, hp]
      rfl
    | none =>
      have hL : L.filterMap (parsedNumericValue "sepia") = [v] := by
        simpa [List.filterMap_cons, hp] using h
      rw [List.foldl_cons, ih _ hL, (applyPresetFilter_spec acc f).2.2.2.1, hp]
      rfl

theorem foldl_merge_others (L : List String) (acc : MergedSettings × List String) :
    (L.foldl applyPresetFilter acc).2 = acc.2 ++ L.filter (fun f => isPushed f) := by
  induction L generalizing acc with
  | nil => simp
  | cons f L ih =>
    rw [List.foldl_cons, ih, (applyPresetFilter_spec acc f).2.2.2.2]
    cases hp : isPushed f <;> simp [List.filter_cons, hp]

/-- Claim C5, amended: for every preset style string and finetune settings
(with a single sepia contribution in the preset, as in every shipped preset),
`combinedFilterStyle` multiplies the brightness, contrast and saturate
contributions, adds the sepia contributions and clamps the sum at the ceiling
1, and passes through exactly the extracted preset entries that are not
numeric finetune dimensions — but "extracted" is by the word-character regex,
which truncates hyphenated effect names: `hue-rotate(-15deg)` is passed
through as `rotate(-15deg)`, not unchanged (see the counterexample). -/
theorem claim_C5_style_merge (presetStyle : String) (fs : FinetuneSettings) (v : ℚ)
    (hsepia : namedValues presetStyle "sepia" = [v]) :
    (combinedFilterParts presetStyle fs).1.brightness
        = fs.brightness / 100 * (namedValues presetStyle "brightness").prod ∧
      (combinedFilterParts presetStyle fs).1.contrast
        = fs.contrast / 100 * (namedValues presetStyle "contrast").prod ∧
      (combinedFilterParts presetStyle fs).1.saturate
        = fs.saturation / 100 * (namedValues presetStyle "saturate").prod ∧
      (combinedFilterParts presetStyle fs).1.sepia = min (fs.sepia / 100 + v) 1 ∧
      (combinedFilterParts presetStyle fs).1.sepia ≤ 1 ∧
      (combinedFilterParts presetStyle fs).2
        = (extractFilters presetStyle).filter (fun f => isPushed f) := by
  have hsepia2 : (extractFilters presetStyle).filterMap (parsedNumericValue "sepia")
      = [v] := hsepia
  refine ⟨foldl_merge_brightness _ _, foldl_merge_contrast _ _,
    foldl_merge_saturate _ _, ?_, ?_, ?_⟩
  · exact foldl_merge_sepia_single _ _ v hsepia2
  · rw [show (combinedFilterParts presetStyle fs).1.sepia = min (fs.sepia / 100 + v) 1
      from foldl_merge_sepia_single _ _ v hsepia2]
    exact min_le_right _ _
  · rw [show (combinedFilterParts presetStyle fs).2
        = [] ++ (extractFilters presetStyle).filter (fun f => isPushed f)
      from foldl_merge_others _ _]
    exact List.nil_append _

/-- Counterexample to the pass-through clause of claim C5 as stated: the
`Cool` preset `hue-rotate(-15deg) saturate(1.5)` does not pass `hue-rotate`
through unchanged — the `(\w+)\(...\)` regex cannot match the hyphen, so the
extracted entry is `rotate(-15deg)` and that (an entirely different CSS
filter) is what reaches the output. -/
theorem claim_C5_counterexample :
    extractFilters "hue-rotate(-15deg) saturate(1.5)"
        = ["rotate(-15deg)", "saturate(1.5)"] ∧
      (combinedFilterParts "hue-rotate(-15deg) saturate(1.5)"
        ⟨100, 100, 100, 0, 0⟩).2 = ["rotate(-15deg)"] ∧
      "hue-rotate(-15deg)" ∉ (combinedFilterParts "hue-rotate(-15deg) saturate(1.5)"
        ⟨100, 100, 100, 0, 0⟩).2 :=
  ⟨by decide, by decide, by decide⟩

set_option maxRecDepth 4000 in
/-- Witness for the amended C5 at the `Sepia` preset `sepia(1)` and default
slider values. -/
theorem claim_C5_witness :
    namedValues "sepia(1)" "sepia" = [1] ∧
      ((combinedFilterParts "sepia(1)" ⟨100, 100, 100, 0, 0⟩).1.brightness
          = (100 : ℚ) / 100 * (namedValues "sepia(1)" "brightness").prod ∧
        (combinedFilterParts "sepia(1)" ⟨100, 100, 100, 0, 0⟩).1.contrast
          = (100 : ℚ) / 100 * (namedValues "sepia(1)" "contrast").prod ∧
        (combinedFilterParts "sepia(1)" ⟨100, 100, 100, 0, 0⟩).1.saturate
          = (100 : ℚ) / 100 * (namedValues "sepia(1)" "saturate").prod ∧
        (combinedFilterParts "sepia(1)" ⟨100, 100, 100, 0, 0⟩).1.sepia
          = min ((0 : ℚ) / 100 + 1) 1 ∧
        (combinedFilterParts "sepia(1)" ⟨100, 100, 100, 0, 0⟩).1.sepia ≤ 1 ∧
        (combinedFilterParts "sepia(1)" ⟨100, 100, 100, 0, 0⟩).2
          = (extractFilters "sepia(1)").filter (fun f => isPushed f)) := by
  have hsep : namedValues "sepia(1)" "sepia" = [1] := by
    norm_num +decide [namedValues, extractFilters, scanFiltersAux, parsedNumericValue,
      parseFilterParts, parseFilterPartsAux, parseFloatQ, digitsVal, isWordChar,
      String.toList, List.filterMap_cons, List.length_cons,
      show '1'.toNat = 49 from rfl, show '0'.toNat = 48 from rfl]
  exact ⟨hsep, claim_C5_style_merge "sepia(1)" ⟨100, 100, 100, 0, 0⟩ 1 hsep⟩
